import Mathlib

/-!
Verification of the filename-to-administrative-unit resolution logic of
`clim2parquet` (`src/clim2parquet/tools.py`, `src/clim2parquet/__init__.py`,
`data-raw/admin_unit_ids.py`).

Filenames are modelled as `List Char`.  The regular expressions used by the
package all belong to one family, `{gadm_version}_(\d+_){k}` optionally
followed by a data-source pattern; since a digit run and the separator `_`
are disjoint character classes, Python's leftmost greedy search is
deterministic on this family and is embedded below as an executable matcher.
Python `str.strip(chars)` (a character-set strip from both ends),
`re.findall(r"\d+")` and `int` on digit strings are embedded faithfully.
Fallible operations (an exception reaching the caller) are modelled by
`Option`, with `none` for the raising executions.
-/

namespace Clim2Parquet

/-- The single supported GADM version string `"v410"`, as a character list. -/
def v410 : List Char := ['v', '4', '1', '0']

/-- Python `s.lstrip(cs)`: drop characters of the set `cs` from the left. -/
def pyLstrip (cs s : List Char) : List Char := s.dropWhile (fun c => cs.contains c)

/-- Python `s.rstrip(cs)`: drop characters of the set `cs` from the right. -/
def pyRstrip (cs s : List Char) : List Char :=
  (s.reverse.dropWhile (fun c => cs.contains c)).reverse

/-- Python `s.strip(cs)`: drop characters of the set `cs` from both ends. -/
def pyStrip (cs s : List Char) : List Char := pyRstrip cs (pyLstrip cs s)

/-- Helper for `findallDigits`: accumulate the current (reversed) digit run. -/
def findallAux : List Char → List Char → List (List Char)
  | acc, [] => if acc.isEmpty then [] else [acc.reverse]
  | acc, c :: s =>
    if c.isDigit then findallAux (c :: acc) s
    else if acc.isEmpty then findallAux [] s
    else acc.reverse :: findallAux [] s

/-- Python `re.findall(r"\d+", s)`: the maximal digit runs of `s`, in order. -/
def findallDigits (s : List Char) : List (List Char) := findallAux [] s

/-- Python `int` on a (nonempty, all-digit) string. -/
def digitsToNat (g : List Char) : Nat :=
  g.foldl (fun a c => 10 * a + (c.toNat - 48)) 0

/-- Match one `\d+_` group at the current position: a maximal nonempty digit
run followed by the separator.  Returns the digit run and the rest. -/
def matchGroup (s : List Char) : Option (List Char × List Char) :=
  let run := s.takeWhile Char.isDigit
  let rest := s.dropWhile Char.isDigit
  if run.isEmpty then none
  else
    match rest with
    | '_' :: r => some (run, r)
    | _ => none

/-- Match `(\d+_){k}` at the current position.  Returns the consumed span,
the list of digit runs (regex groups), and the rest of the input. -/
def matchRep : Nat → List Char → Option (List Char × List (List Char) × List Char)
  | 0, s => some ([], [], s)
  | k + 1, s =>
    match matchGroup s with
    | none => none
    | some (g, r) =>
      match matchRep k r with
      | none => none
      | some (c, gs, rest) => some (g ++ '_' :: c, g :: gs, rest)

/-- Match `{v}_(\d+_){k}` at the current position.  Returns the matched span
(regex group 0), the digit-run groups, and the rest of the input. -/
def matchLevelAt (v : List Char) (k : Nat) (s : List Char) :
    Option (List Char × List (List Char) × List Char) :=
  if s.take v.length = v then
    match s.drop v.length with
    | '_' :: r =>
      match matchRep k r with
      | some (c, gs, rest) => some (v ++ '_' :: c, gs, rest)
      | none => none
    | _ => none
  else none

/-- Python `re.search` for the pattern `{v}_(\d+_){k}`: try every start
position from the left, return the first match's span and groups. -/
def searchLevel (v : List Char) (k : Nat) : List Char → Option (List Char × List (List Char))
  | [] => (matchLevelAt v k []).map (fun x => (x.1, x.2.1))
  | c :: t =>
    match matchLevelAt v k (c :: t) with
    | some (span, gs, _) => some (span, gs)
    | none => searchLevel v k t

/-- `rep_count` of `_get_level_pattern`: `admin_level + ((admin_level > 0) * 1)`. -/
def rep_count (admin_level : Nat) : Nat :=
  admin_level + (if 0 < admin_level then 1 else 0)

/-- `_get_level_pattern`: the regex source string
`rf"{gadm_version}_(\d+_){{{rep_count}}}"`. -/
def get_level_pattern (admin_level : Nat) (gadm_version : String) : String :=
  gadm_version ++ "_(\\d+_)\x7b" ++ toString (rep_count admin_level) ++ "\x7d"

/-- `_pad_admin_levels`: pad the extracted admin codes to a fixed length,
with a single left `0` (the country identifier) when the inferred level is
positive.  Python's `[0] * n` for negative `n` is `[]`, matching truncated
`Nat` subtraction. -/
def pad_admin_levels (admin_data : List Nat) (admin_level : Nat)
    (pad_len : Nat := 3) : List Nat :=
  let admin_0_identifier : Nat := 0
  let zero_counter := if 0 < admin_level then 1 else 0
  let pad_len' := if admin_level = 0 then pad_len + 1 else pad_len
  List.replicate zero_counter admin_0_identifier ++ admin_data ++
    List.replicate (pad_len' - admin_data.length) 0

/-- `_get_admin_data`: search the filename with the level pattern, strip the
GADM-version characters and separators from the matched span, read the digit
runs; the last run is the GID code version, the others the admin codes.
`none` models the exceptions: `re.search` returning `None` (so that
`match.group(0)` raises), and `admin_data[-1]` on an empty list. -/
def get_admin_data (filename : List Char) (admin_level : Nat)
    (gadm_version : List Char) : Option (List Nat) :=
  match searchLevel gadm_version (rep_count admin_level) filename with
  | none => none
  | some (span, _) =>
    let m := pyStrip ['_'] (pyStrip gadm_version span)
    if m.isEmpty then
      -- admin level is 0 (country); GID code version assumed to be 1
      some (pad_admin_levels [0] 0 ++ [1])
    else
      let ad := (findallDigits m).map digitsToNat
      match ad.getLast? with
      | none => none
      | some gid_code =>
        let codes := ad.dropLast
        some (pad_admin_levels codes codes.length ++ [gid_code])

-- sanity checks (concrete evaluations of the embedding)
example : searchLevel v410 2 "ZZZ_v410_12_3_CHIRPS.csv".toList =
    some ("v410_12_3_".toList, [['1', '2'], ['3']]) := by decide

example : get_admin_data "ZZZ_v410_CHIRPS.csv".toList 0 v410 =
    some [0, 0, 0, 0, 1] := by decide

example : get_admin_data "ZZZ_v410_1_2_3_4_CHIRPS.csv".toList 3 v410 =
    some [0, 1, 2, 3, 4] := by decide

example : get_admin_data "ZZZ_v410_1_2_3_4_CHIRPS.csv".toList 1 v410 =
    some [0, 1, 0, 0, 2] := by decide

example : get_admin_data "ZZZ_v410_CHIRPS.csv".toList 1 v410 = none := by decide

/-! ## The annotator (`_add_admin_data`) and its data model -/

/-- One row of the `admin_units.parquet` reference table as consumed by
`_add_admin_data`: four admin-unit slots (`0` is the documented marker for
the country level / a not-applicable deeper level: "No other admin units
have a numeric identifier of 0"), the GID code version, and the surrogate
identifier `uid`. -/
structure AdminUnitRow where
  admin_unit_0 : Nat
  admin_unit_1 : Nat
  admin_unit_2 : Nat
  admin_unit_3 : Nat
  gid_code_version : Nat
  uid : Nat
deriving DecidableEq, Repr

/-- The filter predicate of `_add_admin_data`: exact equality of the four
slots and of the GID code version. -/
def rowMatches (a0 a1 a2 a3 gv : Nat) (r : AdminUnitRow) : Bool :=
  (r.admin_unit_0 == a0) && (r.admin_unit_1 == a1) && (r.admin_unit_2 == a2)
    && (r.admin_unit_3 == a3) && (r.gid_code_version == gv)

/-- A pandas DataFrame, as far as the annotator observes it: a row count and
named columns of integer cells. -/
structure DataFrame where
  nrows : Nat
  cols : List (String × List Int)
deriving DecidableEq, Repr

/-- Pandas column assignment `data[name] = vals`: overwrite the column in
place when it exists, append it at the end otherwise. -/
def DataFrame.setCol (df : DataFrame) (name : String) (vals : List Int) : DataFrame :=
  if df.cols.any (fun p => p.1 == name) then
    { df with cols := df.cols.map (fun p => if p.1 == name then (name, vals) else p) }
  else
    { df with cols := df.cols ++ [(name, vals)] }

/-- `_add_admin_data`: filter the reference table for the admin data, take
`values[0]` of the `uid` column of the filtered frame, and assign it as the
constant column `admin_unit_uid`.  `none` models the raising executions:
indexing `admin_data[0..4]` on a too-short list, and `values[0]` on an
empty filter result (zero matching rows). -/
def add_admin_data (data : DataFrame) (admin_data : List Nat)
    (admin_unit_uids : List AdminUnitRow) : Option DataFrame :=
  match admin_data with
  | a0 :: a1 :: a2 :: a3 :: gv :: _ =>
    match admin_unit_uids.filter (rowMatches a0 a1 a2 a3 gv) with
    | [] => none
    | r :: _ =>
      some (data.setCol "admin_unit_uid" (List.replicate data.nrows (r.uid : Int)))
  | _ => none

/-! ## Spec-side AdminCode matching (for the refinement claim C4) -/

/-- Spec-side slots of an AdminCode / ReferenceEntry: each slot is either a
populated numeric identifier or null (not applicable). -/
structure SpecSlots where
  level0 : Option Nat
  level1 : Option Nat
  level2 : Option Nat
  level3 : Option Nat
deriving DecidableEq, Repr

/-- Modelled from the spec: null-aware equality on one slot — null matches
null, and a populated value matches only the identical populated value. -/
def optEq : Option Nat → Option Nat → Bool
  | none, none => true
  | some a, some b => a == b
  | _, _ => false

/-- Modelled from the spec: the Row Annotator matching rule — the four slots
agree under null-aware equality and the code versions agree exactly. -/
def specMatches (c : SpecSlots) (cv : Nat) (e : SpecSlots) (ev : Nat) : Bool :=
  optEq c.level0 e.level0 && optEq c.level1 e.level1 && optEq c.level2 e.level2
    && optEq c.level3 e.level3 && (cv == ev)

/-- The implementation's sentinel encoding of a slot: null is stored as `0`. -/
def encodeSlot : Option Nat → Nat
  | none => 0
  | some n => n

/-! ## File search (`_find_clim_files`) and the conversion wrappers -/

/-- Match the combined pattern `{v}_(\d+_){k}{data_pattern}` at the current
position: the level pattern followed by the data-source pattern, the latter
abstracted as a predicate `dataM` on the rest of the input (it must match
starting right after the level span). -/
def matchFullAt (v : List Char) (k : Nat) (dataM : List Char → Bool)
    (s : List Char) : Bool :=
  match matchLevelAt v k s with
  | some (_, _, rest) => dataM rest
  | none => false

/-- Python `re.search` for the combined file-filter pattern. -/
def searchFull (v : List Char) (k : Nat) (dataM : List Char → Bool) :
    List Char → Bool
  | [] => matchFullAt v k dataM []
  | c :: t => matchFullAt v k dataM (c :: t) || searchFull v k dataM t

/-- `_find_clim_files`: filter the directory listing by the combined pattern;
returns the matching files and whether the no-files warning was issued
(`len(path_files) < 1`).  The warning is a side effect only: the function
returns normally in both cases. -/
def find_clim_files (files : List (List Char)) (dataM : List Char → Bool)
    (admin_level : Nat) (gadm_version : List Char) :
    List (List Char) × Bool :=
  let path_files := files.filter (searchFull gadm_version (rep_count admin_level) dataM)
  (path_files, decide (path_files.length < 1))

/-- Outcome of one per-source conversion wrapper (`chirps_to_parquet` and
its siblings): the (source, level) combination was skipped because no files
were found, or the found files were handed on for conversion. -/
inductive ConvertResult where
  | skipped
  | wrote (files : List (List Char))
deriving DecidableEq, Repr

/-- One conversion wrapper (`chirps_to_parquet` shape): find the files; on
an empty result print a warning and return, otherwise convert. -/
def x_to_parquet (dirFiles : List (List Char)) (dataM : List Char → Bool)
    (admin_level : Nat) (gadm_version : List Char) : ConvertResult :=
  let files := (find_clim_files dirFiles dataM admin_level gadm_version).1
  if files.length = 0 then ConvertResult.skipped else ConvertResult.wrote files

/-- The `clim_to_parquet` loop over (data source, admin level) combinations:
each combination is processed independently by its wrapper. -/
def clim_run (dirFiles : List (List Char))
    (combos : List ((List Char → Bool) × Nat)) (gadm_version : List Char) :
    List ConvertResult :=
  combos.map (fun p => x_to_parquet dirFiles p.1 p.2 gadm_version)

/-! ## The reference-table generation pipeline (`data-raw/admin_unit_ids.py`) -/

/-- One row of the deduplicated GADM attribute table: `GID_0..3` and
`NAME_0..3`, each possibly missing (`NaN`). -/
structure GadmRow where
  gid0 : Option String
  gid1 : Option String
  gid2 : Option String
  gid3 : Option String
  name0 : Option String
  name1 : Option String
  name2 : Option String
  name3 : Option String
deriving DecidableEq, Repr

/-- The projection `data_pd[gid_names + readable_names]` for a top level
`i ∈ {0, 1, 2}` followed by reindexing on the full column set: columns
deeper than `i` become missing. -/
def projectLevel : Nat → GadmRow → GadmRow
  | 0, r => ⟨r.gid0, none, none, none, r.name0, none, none, none⟩
  | 1, r => ⟨r.gid0, r.gid1, none, none, r.name0, r.name1, none, none⟩
  | _, r => ⟨r.gid0, r.gid1, r.gid2, none, r.name0, r.name1, r.name2, none⟩

/-- The row order produced by `admin_unit_ids.py`: deduplicate the input
(pandas `drop_duplicates` keeps first occurrences), prepend the synthesized
top-level (0, 1, 2) projections — each deduplicated — and then the full
rows; no sorting ("NOTE: not sorting by GID; accepting current sorting"). -/
def admin_unit_ids_rows (rows : List GadmRow) : List GadmRow :=
  let data_pd := rows.eraseDups
  let tops := ([0, 1, 2].map (fun i => (data_pd.map (projectLevel i)).eraseDups)).flatten
  tops ++ data_pd

/-- The generated reference table: the rows in pipeline order, each with
`admin_unit_id = range(len(data))`, i.e. its 0-based position. -/
def admin_unit_ids_table (rows : List GadmRow) : List (GadmRow × Nat) :=
  (admin_unit_ids_rows rows).zip (List.range (admin_unit_ids_rows rows).length)

/-- Strict lexicographic order on character lists, by code point. -/
def charListLT : List Char → List Char → Bool
  | [], [] => false
  | [], _ :: _ => true
  | _ :: _, [] => false
  | a :: as, b :: bs =>
    if a.toNat < b.toNat then true
    else if b.toNat < a.toNat then false
    else charListLT as bs

/-- Modelled from the spec: strict "ascending, nulls below all real values"
order on one slot (lexicographic on the GID strings). -/
def optStrLT : Option String → Option String → Bool
  | none, none => false
  | none, some _ => true
  | some _, none => false
  | some a, some b => charListLT a.toList b.toList

/-- Modelled from the spec: the total order sorting reference entries by the
four slots ascending (lexicographically), nulls below all real values. -/
def specRowLT (r s : GadmRow) : Bool :=
  optStrLT r.gid0 s.gid0 ||
    (r.gid0 == s.gid0 && (optStrLT r.gid1 s.gid1 ||
      (r.gid1 == s.gid1 && (optStrLT r.gid2 s.gid2 ||
        (r.gid2 == s.gid2 && optStrLT r.gid3 s.gid3)))))

/-- Modelled from the spec: the rank of a row in the sorted distinct set —
the number of distinct generated rows strictly below it. -/
def specRank (rows : List GadmRow) (r : GadmRow) : Nat :=
  (rows.eraseDups.filter (fun s => specRowLT s r)).length

-- sanity checks for the annotator and the pipeline
example :
    add_admin_data ⟨2, [("t", [10, 20])]⟩ [0, 0, 0, 0, 1]
      [⟨0, 0, 0, 0, 1, 7⟩] =
    some ⟨2, [("t", [10, 20]), ("admin_unit_uid", [7, 7])]⟩ := by decide

example :
    add_admin_data ⟨1, [("t", [10])]⟩ [0, 0, 0, 0, 1] [⟨0, 1, 0, 0, 1, 7⟩] =
      none := by decide

/-! ## Shape of the spans consumed by the level pattern -/

/-- The body consumed by `(\d+_){k}`: each group followed by its separator,
`g₁ ++ "_" ++ g₂ ++ "_" ++ … ++ g_k ++ "_"`. -/
def underBody : List (List Char) → List Char
  | [] => []
  | g :: gs => g ++ '_' :: underBody gs

/-- The groups joined by single separators, `g₁ ++ "_" ++ … ++ "_" ++ g_k`. -/
def underJoin : List (List Char) → List Char
  | [] => []
  | [g] => g
  | g :: g' :: gs => g ++ '_' :: underJoin (g' :: gs)

/-- Well-formed regex groups for `\d+`: each nonempty and all digits. -/
def goodGroups (gs : List (List Char)) : Prop :=
  ∀ g ∈ gs, g ≠ [] ∧ ∀ c ∈ g, c.isDigit

/-- Two concrete full-depth GADM rows used to evaluate the reference-table
generation pipeline on a concrete input. -/
def cexRows : List GadmRow :=
  [⟨some "A", some "A.1", some "A.1.1", some "A.1.1.1", none, none, none, none⟩,
   ⟨some "B", some "B.1", some "B.1.1", some "B.1.1.1", none, none, none, none⟩]

/-! ## Lemmas on the matcher -/

theorem matchGroup_eq {s g r : List Char} (h : matchGroup s = some (g, r)) :
    s = g ++ '_' :: r ∧ g ≠ [] ∧ ∀ c ∈ g, c.isDigit := by
  simp only [matchGroup] at h
  split at h
  · simp at h
  · rename_i hne
    split at h
    · rename_i r' heq
      simp only [Option.some.injEq, Prod.mk.injEq] at h
      obtain ⟨hg, hr⟩ := h
      subst hg
      subst hr
      refine ⟨?_, ?_, ?_⟩
      · conv_lhs => rw [← List.takeWhile_append_dropWhile (p := Char.isDigit) (l := s)]
        rw [heq]
      · simpa [List.isEmpty_iff] using hne
      · intro c hc
        exact List.all_eq_true.mp (List.all_takeWhile (l := s)) c hc
    · simp at h

theorem matchRep_eq : ∀ {k : Nat} {s c : List Char} {gs : List (List Char)}
    {rest : List Char}, matchRep k s = some (c, gs, rest) →
    s = c ++ rest ∧ c = underBody gs ∧ gs.length = k ∧ goodGroups gs := by
  intro k
  induction k with
  | zero =>
    intro s c gs rest h
    simp only [matchRep, Option.some.injEq, Prod.mk.injEq] at h
    obtain ⟨hc, hgs, hrest⟩ := h
    subst hc; subst hgs; subst hrest
    exact ⟨rfl, rfl, rfl, by simp [goodGroups]⟩
  | succ k ih =>
    intro s c gs rest h
    simp only [matchRep] at h
    split at h
    · simp at h
    · rename_i g r hg
      split at h
      · simp at h
      · rename_i c' gs' rest' hrep
        simp only [Option.some.injEq, Prod.mk.injEq] at h
        obtain ⟨hc, hgs, hrest⟩ := h
        subst hc; subst hgs; subst hrest
        obtain ⟨hs, hgne, hgd⟩ := matchGroup_eq hg
        obtain ⟨hr, hc', hlen, hgood⟩ := ih hrep
        refine ⟨?_, ?_, ?_, ?_⟩
        · rw [hs, hr]; simp
        · simp [underBody, hc']
        · simp [hlen]
        · intro x hx
          rcases List.mem_cons.mp hx with hx | hx
          · subst hx; exact ⟨hgne, hgd⟩
          · exact hgood x hx

theorem matchLevelAt_eq {v : List Char} {k : Nat} {s span : List Char}
    {gs : List (List Char)} {rest : List Char}
    (h : matchLevelAt v k s = some (span, gs, rest)) :
    span = v ++ '_' :: underBody gs ∧ gs.length = k ∧ goodGroups gs := by
  simp only [matchLevelAt] at h
  split at h
  · split at h
    · rename_i r heq
      split at h
      · rename_i c gs' rest' hrep
        simp only [Option.some.injEq, Prod.mk.injEq] at h
        obtain ⟨hspan, hgs, hrest⟩ := h
        subst hspan; subst hgs; subst hrest
        obtain ⟨_, hc, hlen, hgood⟩ := matchRep_eq hrep
        exact ⟨by rw [hc], hlen, hgood⟩
      · simp at h
    · simp at h
  · simp at h

theorem searchLevel_eq {v : List Char} {k : Nat} :
    ∀ {s span : List Char} {gs : List (List Char)},
    searchLevel v k s = some (span, gs) →
    span = v ++ '_' :: underBody gs ∧ gs.length = k ∧ goodGroups gs := by
  intro s
  induction s with
  | nil =>
    intro span gs h
    simp only [searchLevel] at h
    rcases Option.map_eq_some'.mp h with ⟨⟨span', gs', rest'⟩, hm, hf⟩
    simp only [Prod.mk.injEq] at hf
    obtain ⟨h1, h2⟩ := hf
    subst h1; subst h2
    exact matchLevelAt_eq hm
  | cons a t ih =>
    intro span gs h
    simp only [searchLevel] at h
    split at h
    · rename_i span' gs' rest' hm
      simp only [Option.some.injEq, Prod.mk.injEq] at h
      obtain ⟨h1, h2⟩ := h
      subst h1; subst h2
      exact matchLevelAt_eq hm
    · exact ih h

theorem matchFullAt_imp {v : List Char} {k : Nat} {dataM : List Char → Bool}
    {s : List Char} (h : matchFullAt v k dataM s = true) :
    ∃ x, matchLevelAt v k s = some x := by
  unfold matchFullAt at h
  split at h
  · rename_i x y z hx
    exact ⟨(x, y, z), hx⟩
  · simp at h

theorem searchLevel_isSome_of_searchFull {v : List Char} {k : Nat}
    {dataM : List Char → Bool} :
    ∀ {s : List Char}, searchFull v k dataM s = true →
    (searchLevel v k s).isSome := by
  intro s
  induction s with
  | nil =>
    intro h
    obtain ⟨x, hx⟩ := matchFullAt_imp h
    simp [searchLevel, hx]
  | cons a t ih =>
    intro h
    simp only [searchFull, Bool.or_eq_true] at h
    rcases h with h | h
    · obtain ⟨⟨span, gs, rest⟩, hx⟩ := matchFullAt_imp h
      simp [searchLevel, hx]
    · have := ih h
      simp only [searchLevel]
      split
      · simp
      · exact this

/-! ## Lemmas on Python string stripping -/

theorem pyLstrip_v410 (b : List Char) :
    pyLstrip v410 (v410 ++ '_' :: b) = '_' :: b := by
  show List.dropWhile _ ('v' :: '4' :: '1' :: '0' :: '_' :: b) = '_' :: b
  rw [List.dropWhile_cons_of_pos (by decide), List.dropWhile_cons_of_pos (by decide),
      List.dropWhile_cons_of_pos (by decide), List.dropWhile_cons_of_pos (by decide),
      List.dropWhile_cons_of_neg (by decide)]

theorem pyRstrip_noop {cs s : List Char} {c : Char} {t : List Char}
    (h : s.reverse = c :: t) (hc : cs.contains c = false) : pyRstrip cs s = s := by
  unfold pyRstrip
  rw [h, List.dropWhile_cons_of_neg (by simpa using hc), ← h, List.reverse_reverse]

theorem underBody_eq_underJoin :
    ∀ (gs : List (List Char)), gs ≠ [] → underBody gs = underJoin gs ++ ['_'] := by
  intro gs
  induction gs with
  | nil => intro h; exact absurd rfl h
  | cons g gs ih =>
    intro _
    cases gs with
    | nil => simp [underBody, underJoin]
    | cons g' gs' =>
      rw [show underBody (g :: g' :: gs') = g ++ '_' :: underBody (g' :: gs') from rfl,
          ih (by simp),
          show underJoin (g :: g' :: gs') = g ++ '_' :: underJoin (g' :: gs') from rfl]
      simp

theorem underJoin_head :
    ∀ (gs : List (List Char)), gs ≠ [] → goodGroups gs →
    ∃ d t, underJoin gs = d :: t ∧ d.isDigit := by
  intro gs hne hgood
  cases gs with
  | nil => exact absurd rfl hne
  | cons g rest =>
    obtain ⟨hgne, hgd⟩ := hgood g (List.mem_cons_self _ _)
    cases g with
    | nil => exact absurd rfl hgne
    | cons d g' =>
      have hd : d.isDigit := hgd d (List.mem_cons_self _ _)
      cases rest with
      | nil => exact ⟨d, g', rfl, hd⟩
      | cons g'' rest' => exact ⟨d, g' ++ '_' :: underJoin (g'' :: rest'), rfl, hd⟩

theorem underJoin_last :
    ∀ (gs : List (List Char)), gs ≠ [] → goodGroups gs →
    ∃ d t, (underJoin gs).reverse = d :: t ∧ d.isDigit := by
  intro gs
  induction gs with
  | nil => intro h; exact absurd rfl h
  | cons g rest ih =>
    intro _ hgood
    obtain ⟨hgne, hgd⟩ := hgood g (List.mem_cons_self _ _)
    cases rest with
    | nil =>
      cases hrev : g.reverse with
      | nil => exact absurd (by simpa using hrev) hgne
      | cons d t =>
        refine ⟨d, t, hrev, hgd d ?_⟩
        have : d ∈ g.reverse := by rw [hrev]; exact List.mem_cons_self _ _
        simpa using this
    | cons g' rest' =>
      obtain ⟨d, t, hrev, hd⟩ := ih (by simp)
        (fun x hx => hgood x (List.mem_cons_of_mem _ hx))
      refine ⟨d, t ++ '_' :: g.reverse, ?_, hd⟩
      show (g ++ '_' :: underJoin (g' :: rest')).reverse = _
      rw [List.reverse_append, List.reverse_cons, hrev]
      simp

theorem isDigit_ne_underscore {d : Char} (hd : d.isDigit) : ¬ d = '_' := by
  intro e
  subst e
  exact absurd hd (by decide)

theorem strip_span (gs : List (List Char)) (hne : gs ≠ []) (hgood : goodGroups gs) :
    pyStrip ['_'] (pyStrip v410 (v410 ++ '_' :: underBody gs)) = underJoin gs := by
  have hBody : underBody gs = underJoin gs ++ ['_'] := underBody_eq_underJoin gs hne
  obtain ⟨dh, th, hjoin, hdh⟩ := underJoin_head gs hne hgood
  obtain ⟨dl, tl, hrev, hdl⟩ := underJoin_last gs hne hgood
  have h1 : pyStrip v410 (v410 ++ '_' :: underBody gs) = '_' :: underBody gs := by
    unfold pyStrip
    rw [pyLstrip_v410]
    refine pyRstrip_noop (c := '_') (t := (underJoin gs).reverse ++ ['_']) ?_ (by decide)
    rw [hBody]
    simp
  rw [h1]
  have h2 : pyLstrip ['_'] ('_' :: underBody gs) = underBody gs := by
    unfold pyLstrip
    rw [List.dropWhile_cons_of_pos (by decide)]
    rw [hBody, hjoin]
    rw [show ((dh :: th) ++ ['_'] : List Char) = dh :: (th ++ ['_']) from rfl]
    rw [List.dropWhile_cons_of_neg (by simpa using isDigit_ne_underscore hdh)]
  have h3 : pyRstrip ['_'] (underBody gs) = underJoin gs := by
    unfold pyRstrip
    rw [hBody, List.reverse_append]
    rw [show ((['_'] : List Char).reverse ++ (underJoin gs).reverse) =
      '_' :: (underJoin gs).reverse from rfl]
    rw [List.dropWhile_cons_of_pos (by decide), hrev]
    rw [List.dropWhile_cons_of_neg (by simpa using isDigit_ne_underscore hdl)]
    rw [← hrev, List.reverse_reverse]
  unfold pyStrip
  rw [h2, h3]

/-! ## Lemmas on `findallDigits` -/

theorem findallAux_digits :
    ∀ (g : List Char), (∀ c ∈ g, c.isDigit) →
    ∀ (acc s : List Char), findallAux acc (g ++ s) = findallAux (g.reverse ++ acc) s := by
  intro g
  induction g with
  | nil => intro _ acc s; simp
  | cons c g ih =>
    intro hg acc s
    have hc : c.isDigit := hg c (List.mem_cons_self _ _)
    show findallAux acc (c :: (g ++ s)) = _
    rw [show findallAux acc (c :: (g ++ s)) =
      if c.isDigit then findallAux (c :: acc) (g ++ s)
      else if acc.isEmpty then findallAux [] (g ++ s)
      else acc.reverse :: findallAux [] (g ++ s) from rfl]
    rw [hc]
    simp only [if_true]
    rw [ih (fun x hx => hg x (List.mem_cons_of_mem _ hx)) (c :: acc) s]
    congr 1
    simp

theorem findallAux_stop (acc : List Char) (hne : acc ≠ []) (s : List Char) :
    findallAux acc ('_' :: s) = acc.reverse :: findallAux [] s := by
  rw [show findallAux acc ('_' :: s) =
    if ('_' : Char).isDigit then findallAux ('_' :: acc) s
    else if acc.isEmpty then findallAux [] s
    else acc.reverse :: findallAux [] s from rfl]
  rw [show ('_' : Char).isDigit = false from rfl]
  simp [List.isEmpty_iff, hne]

theorem findallAux_end (acc : List Char) (hne : acc ≠ []) :
    findallAux acc [] = [acc.reverse] := by
  simp [findallAux, List.isEmpty_iff, hne]

theorem findall_underJoin :
    ∀ (gs : List (List Char)), goodGroups gs → findallDigits (underJoin gs) = gs := by
  intro gs
  induction gs with
  | nil => intro _; rfl
  | cons g rest ih =>
    intro hgood
    obtain ⟨hgne, hgd⟩ := hgood g (List.mem_cons_self _ _)
    cases rest with
    | nil =>
      show findallDigits (underJoin [g]) = [g]
      rw [show underJoin [g] = g from rfl]
      unfold findallDigits
      conv_lhs => rw [show (g : List Char) = g ++ [] by simp]
      rw [findallAux_digits g hgd [] []]
      rw [List.append_nil, findallAux_end _ (by simpa using hgne), List.reverse_reverse]
    | cons g2 rest2 =>
      show findallDigits (underJoin (g :: g2 :: rest2)) = g :: g2 :: rest2
      rw [show underJoin (g :: g2 :: rest2) = g ++ '_' :: underJoin (g2 :: rest2) from rfl]
      unfold findallDigits
      rw [findallAux_digits g hgd [] ('_' :: underJoin (g2 :: rest2))]
      rw [List.append_nil, findallAux_stop _ (by simpa using hgne) _, List.reverse_reverse]
      congr 1
      exact ih (fun x hx => hgood x (List.mem_cons_of_mem _ hx))

/-! ## The central characterisation of `_get_admin_data` -/

theorem get_admin_data_zero {s span : List Char} {gs : List (List Char)}
    (h : searchLevel v410 (rep_count 0) s = some (span, gs)) :
    get_admin_data s 0 v410 = some [0, 0, 0, 0, 1] := by
  obtain ⟨hspan, hlen, _⟩ := searchLevel_eq h
  have hgs : gs = [] := List.length_eq_zero.mp hlen
  subst hgs
  unfold get_admin_data
  rw [h, hspan]
  decide

theorem get_admin_data_pos {l : Nat} (hl : 0 < l) {s span : List Char}
    {gs : List (List Char)}
    (h : searchLevel v410 (rep_count l) s = some (span, gs)) :
    get_admin_data s l v410 =
      some (0 :: ((gs.map digitsToNat).dropLast ++
        (List.replicate (3 - l) 0 ++ [(gs.map digitsToNat).getLastD 0]))) := by
  obtain ⟨hspan, hlen, hgood⟩ := searchLevel_eq h
  have hrc : rep_count l = l + 1 := by simp [rep_count, hl]
  rw [hrc] at hlen
  have hgsne : gs ≠ [] := by
    intro e
    rw [e] at hlen
    simp at hlen
  unfold get_admin_data
  rw [h]
  dsimp only
  rw [hspan, strip_span gs hgsne hgood]
  obtain ⟨dh, th, hjoin, _⟩ := underJoin_head gs hgsne hgood
  rw [hjoin]
  rw [show ((dh :: th : List Char).isEmpty) = false from rfl]
  simp only [Bool.false_eq_true, if_false, ← hjoin]
  rw [findall_underJoin gs hgood]
  have hmapne : gs.map digitsToNat ≠ [] := by simpa using hgsne
  obtain ⟨x, hx⟩ := Option.isSome_iff_exists.mp (by
    rw [List.getLast?_isSome]; exact hmapne)
  rw [hx]
  have hxd : (gs.map digitsToNat).getLastD 0 = x := by
    rw [List.getLastD_eq_getLast?, hx]; rfl
  rw [hxd]
  have hclen : (gs.map digitsToNat).dropLast.length = l := by
    rw [List.length_dropLast, List.length_map, hlen]
    rfl
  have hcpos : 0 < l := hl
  unfold pad_admin_levels
  rw [hclen]
  simp only [if_pos hcpos, (by omega : l ≠ 0), if_neg (by omega : ¬ l = 0)]
  simp [List.replicate, List.append_assoc]

/-! ## Claim theorems: the Admin-Code Extractor -/

/-- Claim C1: for every filename matched by the level pattern at an admin
level between 1 and 3, `_get_admin_data` returns the 5-element list whose
first element is 0 (the country level), whose middle elements are the
extracted digit runs of the matched span in order — all but the last run —
followed by zero padding for deeper, unpopulated levels, and whose last
element is the last digit run (the GID code version). -/
theorem claim_C1 (l : Nat) (hl1 : 1 ≤ l) (hl3 : l ≤ 3) (s span : List Char)
    (gs : List (List Char))
    (h : searchLevel v410 (rep_count l) s = some (span, gs)) :
    get_admin_data s l v410 =
      some (0 :: ((gs.map digitsToNat).dropLast ++
        (List.replicate (3 - l) 0 ++ [(gs.map digitsToNat).getLastD 0]))) ∧
    (0 :: ((gs.map digitsToNat).dropLast ++
        (List.replicate (3 - l) 0 ++ [(gs.map digitsToNat).getLastD 0]))).length = 5 ∧
    (gs.map digitsToNat).dropLast.length = l := by
  obtain ⟨_, hlen, _⟩ := searchLevel_eq h
  have hl : 0 < l := hl1
  have hrc : rep_count l = l + 1 := by simp [rep_count, hl]
  rw [hrc] at hlen
  have hdl : (gs.map digitsToNat).dropLast.length = l := by
    rw [List.length_dropLast, List.length_map, hlen]
    omega
  refine ⟨get_admin_data_pos hl1 h, ?_, hdl⟩
  simp [hdl]
  omega

/-- Claim C1 witness: the level-1 filename `ZZZ_v410_12_3_CHIRPS.csv`, whose
matched span `v410_12_3_` has digit runs 12 and 3, resolves to
`[0, 12, 0, 0, 3]`. -/
theorem claim_C1_witness :
    get_admin_data "ZZZ_v410_12_3_CHIRPS.csv".toList 1 v410 =
      some [0, 12, 0, 0, 3] := by
  have h := claim_C1 1 (by decide) (by decide) "ZZZ_v410_12_3_CHIRPS.csv".toList
    "v410_12_3_".toList [['1', '2'], ['3']] (by decide)
  exact h.1.trans (by decide)

/-- Claim C2: for every filename matched by the level-0 pattern, stripping
the GADM-version characters and the separators from the matched span leaves
the empty string, and `_get_admin_data` returns `[0, 0, 0, 0, 1]`: level 0
carries the country identifier 0, levels 1–3 carry the not-applicable
marker 0, and the GID code version defaults to the sentinel 1. -/
theorem claim_C2 (s span : List Char) (gs : List (List Char))
    (h : searchLevel v410 (rep_count 0) s = some (span, gs)) :
    pyStrip ['_'] (pyStrip v410 span) = [] ∧
    get_admin_data s 0 v410 = some [0, 0, 0, 0, 1] := by
  obtain ⟨hspan, hlen, _⟩ := searchLevel_eq h
  have hgs : gs = [] := List.length_eq_zero.mp hlen
  subst hgs
  refine ⟨?_, get_admin_data_zero h⟩
  rw [hspan]
  decide

/-- Claim C2 witness: the level-0 filename `ZZZ_v410_CHIRPS.csv` resolves to
`[0, 0, 0, 0, 1]`. -/
theorem claim_C2_witness :
    pyStrip ['_'] (pyStrip v410 "v410_".toList) = [] ∧
    get_admin_data "ZZZ_v410_CHIRPS.csv".toList 0 v410 = some [0, 0, 0, 0, 1] :=
  claim_C2 "ZZZ_v410_CHIRPS.csv".toList "v410_".toList [] (by decide)

/-- Claim C3 counterexample: the filename `ZZZ_v410_1_2_3_4_CHIRPS.csv` has
actual administrative depth 3 (level-3 extraction populates every slot), yet
extraction at the caller-supplied admin level 1 does not fail: it silently
truncates, returning the partially-populated `[0, 1, 0, 0, 2]` that
misreads the level-2 code 2 as the GID code version. -/
theorem claim_C3_counterexample :
    get_admin_data "ZZZ_v410_1_2_3_4_CHIRPS.csv".toList 3 v410 =
      some [0, 1, 2, 3, 4] ∧
    get_admin_data "ZZZ_v410_1_2_3_4_CHIRPS.csv".toList 1 v410 =
      some [0, 1, 0, 0, 2] := by
  decide

/-- Claim C3 (amended): when the level pattern for the requested admin level
does not match the filename — in particular whenever the filename's actual
depth is lower than requested — `_get_admin_data` fails (models the raised
exception) and never returns a partially-populated result; specifically,
requesting admin level 1 against a level-0-only filename fails.  (When the
actual depth exceeds the requested level, the pattern does match and the
extractor silently truncates instead of failing.) -/
theorem claim_C3_amended :
    (∀ (f : List Char) (l : Nat),
      searchLevel v410 (rep_count l) f = none → get_admin_data f l v410 = none) ∧
    get_admin_data "ZZZ_v410_CHIRPS.csv".toList 1 v410 = none := by
  constructor
  · intro f l h
    unfold get_admin_data
    rw [h]
  · decide

/-- Claim C3 amended witness: a filename without any level-2 span yields a
failed search and hence a failed extraction. -/
theorem claim_C3_witness :
    get_admin_data "no_marker_here.csv".toList 2 v410 = none :=
  claim_C3_amended.1 "no_marker_here.csv".toList 2 (by decide)

/-- Claim C7: for every admin level 0–3 and any version marker, a successful
search with the built pattern consumes the marker, its separator, and
exactly `adminLevel + (1 if adminLevel > 0 else 0)` groups of one or more
digits each followed by a separator. -/
theorem claim_C7 (l : Nat) (hl : l ≤ 3) (v s span : List Char)
    (gs : List (List Char))
    (h : searchLevel v (rep_count l) s = some (span, gs)) :
    span = v ++ '_' :: underBody gs ∧
    gs.length = l + (if 0 < l then 1 else 0) := by
  obtain ⟨hspan, hlen, _⟩ := searchLevel_eq h
  exact ⟨hspan, hlen⟩

/-- Claim C7 witness: at level 2 the pattern consumes exactly three digit
groups of the synthetic filename `ZZZ_v410_7_8_2_CHIRPS.csv`. -/
theorem claim_C7_witness :
    "v410_7_8_2_".toList = v410 ++ '_' :: underBody [['7'], ['8'], ['2']] ∧
    ([['7'], ['8'], ['2']] : List (List Char)).length =
      2 + (if 0 < 2 then 1 else 0) :=
  claim_C7 2 (by decide) v410 "ZZZ_v410_7_8_2_CHIRPS.csv".toList
    "v410_7_8_2_".toList [['7'], ['8'], ['2']] (by decide)

/-- Claim C10: every file returned by the file search for a data source and
admin level can be parsed by `_get_admin_data` at the same admin level and
GADM version: the level pattern is a prefix of the combined filter pattern,
so the extractor's search always finds a match and the failure branch is
unreachable for such inputs. -/
theorem claim_C10 (files : List (List Char)) (dataM : List Char → Bool)
    (l : Nat) (f : List Char)
    (hmem : f ∈ (find_clim_files files dataM l v410).1) :
    (get_admin_data f l v410).isSome := by
  have hfull : searchFull v410 (rep_count l) dataM f = true :=
    (List.mem_filter.mp (by simpa [find_clim_files] using hmem)).2
  have hsome := searchLevel_isSome_of_searchFull hfull
  obtain ⟨⟨span, gs⟩, hx⟩ := Option.isSome_iff_exists.mp hsome
  cases Nat.eq_zero_or_pos l with
  | inl h0 =>
    subst h0
    rw [get_admin_data_zero hx]
    rfl
  | inr hp =>
    rw [get_admin_data_pos hp hx]
    rfl

/-- Claim C10 witness: the level-0 CHIRPS file found in a one-file directory
is parseable by the extractor. -/
theorem claim_C10_witness :
    (get_admin_data "ZZZ_v410_CHIRPS.csv".toList 0 v410).isSome :=
  claim_C10 ["ZZZ_v410_CHIRPS.csv".toList] (fun _ => true) 0
    "ZZZ_v410_CHIRPS.csv".toList (by decide)

/-! ## Claim theorems: the Row Annotator -/

theorem beq_nat_comm (x y : Nat) : (y == x) = (x == y) := by
  by_cases h : x = y
  · subst h; rfl
  · simp [h, Ne.symm h]

theorem beq_encode_pop {a b : Option Nat} (ha : a ≠ none) (hb : b ≠ none) :
    (encodeSlot b == encodeSlot a) = optEq a b := by
  match a, b with
  | some x, some y =>
    show (y == x) = optEq (some x) (some y)
    rw [beq_nat_comm]
    rfl
  | none, _ => exact absurd rfl ha
  | some _, none => exact absurd rfl hb

theorem beq_encode_nz {a b : Option Nat} (ha : a ≠ some 0) (hb : b ≠ some 0) :
    (encodeSlot b == encodeSlot a) = optEq a b := by
  match a, b with
  | none, none => rfl
  | none, some y =>
    have hy : ¬ y = 0 := fun e => hb (by rw [e])
    show (y == 0) = false
    simpa using hy
  | some x, none =>
    have hx : ¬ x = 0 := fun e => ha (by rw [e])
    show (0 == x) = false
    simpa using fun e => hx e.symm
  | some x, some y =>
    show (y == x) = optEq (some x) (some y)
    rw [beq_nat_comm]
    rfl

/-- Claim C4: under the sentinel encoding used by the implementation (a null
slot is stored as 0, and no populated admin unit has the identifier 0, with
slot 0 always populated), the `_add_admin_data` filter predicate coincides
with the spec's null-aware matching rule — null matches null, a populated
value matches only the identical populated value, and the code versions
must agree exactly; consequently a country-level AdminCode (levels 1–3
null) matches only a reference entry whose three deeper slots are null and
whose code version agrees, never an entry with any populated deeper
level. -/
theorem claim_C4 :
    (∀ (c e : SpecSlots) (cv ev u : Nat),
      c.level0 ≠ none → e.level0 ≠ none →
      c.level1 ≠ some 0 → c.level2 ≠ some 0 → c.level3 ≠ some 0 →
      e.level1 ≠ some 0 → e.level2 ≠ some 0 → e.level3 ≠ some 0 →
      rowMatches (encodeSlot c.level0) (encodeSlot c.level1)
          (encodeSlot c.level2) (encodeSlot c.level3) cv
          ⟨encodeSlot e.level0, encodeSlot e.level1, encodeSlot e.level2,
            encodeSlot e.level3, ev, u⟩ =
        specMatches c cv e ev) ∧
    (∀ (cv ev : Nat) (e : SpecSlots),
      specMatches ⟨some 0, none, none, none⟩ cv e ev = true →
      e = ⟨some 0, none, none, none⟩ ∧ ev = cv) := by
  constructor
  · intro c e cv ev u hc0 he0 hc1 hc2 hc3 he1 he2 he3
    obtain ⟨c0, c1, c2, c3⟩ := c
    obtain ⟨e0, e1, e2, e3⟩ := e
    dsimp only at hc0 he0 hc1 hc2 hc3 he1 he2 he3
    simp only [rowMatches, specMatches]
    rw [beq_encode_pop hc0 he0, beq_encode_nz hc1 he1, beq_encode_nz hc2 he2,
        beq_encode_nz hc3 he3, beq_nat_comm cv ev]
  · intro cv ev e h
    obtain ⟨e0, e1, e2, e3⟩ := e
    simp only [specMatches, Bool.and_eq_true] at h
    obtain ⟨⟨⟨⟨h0, h1⟩, h2⟩, h3⟩, hv⟩ := h
    cases e0 with
    | none => exact Bool.noConfusion h0
    | some x =>
      cases e1 with
      | some a => exact Bool.noConfusion h1
      | none =>
        cases e2 with
        | some a => exact Bool.noConfusion h2
        | none =>
          cases e3 with
          | some a => exact Bool.noConfusion h3
          | none =>
            have hx : (0 == x) = true := h0
            have hx' : (0 : Nat) = x := beq_iff_eq.mp hx
            subst hx'
            have hv' : cv = ev := beq_iff_eq.mp hv
            exact ⟨rfl, hv'.symm⟩

/-- Claim C4 witness: a country-level code (slots 1–3 null, encoded as 0)
matched against a country-level reference entry. -/
theorem claim_C4_witness :
    rowMatches (encodeSlot (some 5)) (encodeSlot none) (encodeSlot none)
        (encodeSlot none) 9
        ⟨encodeSlot (some 5), encodeSlot none, encodeSlot none,
          encodeSlot none, 9, 42⟩ =
      specMatches ⟨some 5, none, none, none⟩ 9 ⟨some 5, none, none, none⟩ 9 :=
  claim_C4.1 ⟨some 5, none, none, none⟩ ⟨some 5, none, none, none⟩ 9 9 42
    (by decide) (by decide) (by decide) (by decide) (by decide) (by decide)
    (by decide) (by decide)

/-- Claim C5 counterexample: with two reference rows matching the admin data
(differing surrogate ids 7 and 9), `_add_admin_data` does not fail loudly:
it silently stamps the first matching row's id 7. -/
theorem claim_C5_counterexample :
    add_admin_data ⟨1, [("t", [3])]⟩ [0, 1, 0, 0, 1]
        [⟨0, 1, 0, 0, 1, 7⟩, ⟨0, 1, 0, 0, 1, 9⟩] =
      some ⟨1, [("t", [3]), ("admin_unit_uid", [7])]⟩ := by
  decide

/-- Claim C5 (amended): when zero reference rows match the admin data,
`_add_admin_data` fails (the `values[0]` indexing raises before the column
assignment, so the dataset is not modified); when one or more rows match,
it stamps the FIRST matching row's surrogate id without checking
uniqueness. -/
theorem claim_C5_amended :
    (∀ (df : DataFrame) (a0 a1 a2 a3 gv : Nat) (rest : List Nat)
      (t : List AdminUnitRow),
      t.filter (rowMatches a0 a1 a2 a3 gv) = [] →
      add_admin_data df (a0 :: a1 :: a2 :: a3 :: gv :: rest) t = none) ∧
    (∀ (df : DataFrame) (a0 a1 a2 a3 gv : Nat) (rest : List Nat)
      (t : List AdminUnitRow) (r : AdminUnitRow) (others : List AdminUnitRow),
      t.filter (rowMatches a0 a1 a2 a3 gv) = r :: others →
      add_admin_data df (a0 :: a1 :: a2 :: a3 :: gv :: rest) t =
        some (df.setCol "admin_unit_uid"
          (List.replicate df.nrows (r.uid : Int)))) := by
  constructor
  · intro df a0 a1 a2 a3 gv rest t hfil
    unfold add_admin_data
    dsimp only
    rw [hfil]
  · intro df a0 a1 a2 a3 gv rest t r others hfil
    unfold add_admin_data
    dsimp only
    rw [hfil]

/-- Claim C5 amended witness: an admin code absent from the reference table
makes the annotator fail and leave the dataset untouched. -/
theorem claim_C5_witness :
    add_admin_data ⟨1, [("t", [3])]⟩ [0, 2, 0, 0, 1] [⟨0, 1, 0, 0, 1, 7⟩] =
      none :=
  claim_C5_amended.1 ⟨1, [("t", [3])]⟩ 0 2 0 0 1 [] [⟨0, 1, 0, 0, 1, 7⟩]
    (by decide)

/-- Claim C8 counterexample: a dataset that already carries a column named
`admin_unit_uid` (cell value 99) is annotated "successfully", but the
original column is overwritten in place — cell 99 is lost and no new column
is added — refuting preservation of every original column and cell. -/
theorem claim_C8_counterexample :
    add_admin_data ⟨1, [("admin_unit_uid", [99])]⟩ [0, 0, 0, 0, 1]
        [⟨0, 0, 0, 0, 1, 5⟩] =
      some ⟨1, [("admin_unit_uid", [5])]⟩ := by
  decide

/-- Claim C8 (amended): provided the dataset has no column already named
`admin_unit_uid`, a successful annotation appends exactly one new column
`admin_unit_uid` whose value is the resolved surrogate id, constant across
all rows, and preserves every original column and cell unchanged (the
original columns are a prefix of the result). -/
theorem claim_C8_amended (df : DataFrame) (a0 a1 a2 a3 gv : Nat)
    (rest : List Nat) (t : List AdminUnitRow) (r : AdminUnitRow)
    (others : List AdminUnitRow)
    (hname : ∀ p ∈ df.cols, p.1 ≠ "admin_unit_uid")
    (hfil : t.filter (rowMatches a0 a1 a2 a3 gv) = r :: others) :
    add_admin_data df (a0 :: a1 :: a2 :: a3 :: gv :: rest) t =
      some ⟨df.nrows,
        df.cols ++ [("admin_unit_uid", List.replicate df.nrows (r.uid : Int))]⟩ := by
  unfold add_admin_data
  dsimp only
  rw [hfil]
  unfold DataFrame.setCol
  dsimp only
  rw [if_neg ?_]
  intro hany
  obtain ⟨p, hp, hpeq⟩ := List.any_eq_true.mp hany
  exact hname p hp (by simpa using hpeq)

/-- Claim C8 amended witness: a one-column dataset gains exactly the
`admin_unit_uid` column with the matched row's id on every row. -/
theorem claim_C8_witness :
    add_admin_data ⟨2, [("t", [3, 4])]⟩ [0, 0, 0, 0, 1] [⟨0, 0, 0, 0, 1, 5⟩] =
      some ⟨2, [("t", [3, 4]), ("admin_unit_uid", [5, 5])]⟩ := by
  have h := claim_C8_amended ⟨2, [("t", [3, 4])]⟩ 0 0 0 0 1 []
    [⟨0, 0, 0, 0, 1, 5⟩] ⟨0, 0, 0, 0, 1, 5⟩ [] (by decide) (by decide)
  exact h.trans (by decide)

/-! ## Claim theorems: the file search and the conversion loop -/

/-- Claim C9: when no filename in the (existing) directory matches the
combined pattern for a data source and admin level, `_find_clim_files`
issues its non-fatal warning and returns the empty list, the per-source
wrapper skips the combination instead of raising, and the conversion loop
still processes every remaining (source, level) combination. -/
theorem claim_C9 (dirFiles : List (List Char)) (dataM : List Char → Bool)
    (l : Nat) (v : List Char)
    (hnone : ∀ f ∈ dirFiles, searchFull v (rep_count l) dataM f = false) :
    find_clim_files dirFiles dataM l v = ([], true) ∧
    x_to_parquet dirFiles dataM l v = ConvertResult.skipped ∧
    ∀ pre post, clim_run dirFiles (pre ++ (dataM, l) :: post) v =
      clim_run dirFiles pre v ++
        ConvertResult.skipped :: clim_run dirFiles post v := by
  have hfil : dirFiles.filter (searchFull v (rep_count l) dataM) = [] := by
    rw [List.filter_eq_nil_iff]
    intro a ha
    simp [hnone a ha]
  refine ⟨?_, ?_, ?_⟩
  · simp [find_clim_files, hfil]
  · simp [x_to_parquet, find_clim_files, hfil]
  · intro pre post
    simp only [clim_run, List.map_append, List.map_cons]
    simp [x_to_parquet, find_clim_files, hfil]

/-- Claim C9 witness: a directory with one non-matching file yields the
empty result and the warning flag. -/
theorem claim_C9_witness :
    find_clim_files ["other.txt".toList] (fun _ => true) 0 v410 = ([], true) :=
  (claim_C9 ["other.txt".toList] (fun _ => true) 0 v410 (by decide)).1

/-! ## Claim theorems: the reference-table generation -/

/-- Claim C6 counterexample: on the concrete corpus `cexRows` (countries A
and B, each with one full-depth admin unit), the generated surrogate ids are
assigned in concatenation order (all synthesized country rows first, then
all level-1 projections, …), not as the rank under the slot-sorted order
with nulls low: the country-B row gets id 1 but sorted rank 4. -/
theorem claim_C6_counterexample :
    ¬ ∀ p ∈ admin_unit_ids_table cexRows,
      p.2 = specRank (admin_unit_ids_rows cexRows) p.1 := by
  decide

/-- Claim C6 (amended): the surrogate ids of the generated reference table
are exactly `0, 1, 2, …` in table order — a dense 0-based sequence with no
gaps or duplicates — but they are positional (concatenation order of the
synthesized level-0/1/2 projections followed by the full rows), not the
rank under the four-slot ascending sort with nulls low. -/
theorem claim_C6_amended (rows : List GadmRow) :
    (admin_unit_ids_table rows).map Prod.snd =
      List.range (admin_unit_ids_rows rows).length := by
  unfold admin_unit_ids_table
  exact List.map_snd_zip _ _ (by simp)

end Clim2Parquet
